import Mathlib

/-!
Verification development for the admin dashboard's annual-report pipeline
(`src/pages/AnnualReports.jsx`, `src/reportUtils.js`, `src/exportToPDF.js`,
`src/utils/userBlocking.js`) and the interest-rate settings page.

JavaScript numbers are modelled as exact rationals (`ℚ`); `NaN`/`Infinity`
appear only where the code can actually produce them (string parsing in the
interest-rate form) and are modelled there by an explicit `JsNum` type.
JavaScript `Date` values are modelled by a calendar record ordered
lexicographically, which for the calendar dates constructed by this code
agrees with the epoch-millisecond order used by `Date` comparison in JS.
-/

/-- A local-time instant as produced by `new Date(year, month, day)` plus a
millisecond-of-day component.  Comparison of JS `Date`s is numeric on epoch
milliseconds; on calendar form this is the lexicographic order below. -/
structure JsDate where
  year : Int
  month : Nat
  day : Nat
  ms : Nat
  deriving DecidableEq, Repr

/-- Comparison `a <= b` on JS dates (numeric comparison of the underlying instants). -/
def JsDate.leb (a b : JsDate) : Bool :=
  if a.year ≠ b.year then a.year < b.year
  else if a.month ≠ b.month then a.month < b.month
  else if a.day ≠ b.day then a.day < b.day
  else a.ms ≤ b.ms

/-- A document of the `deposits` or `loans` collection, with the fields the
reporting code reads.  `id` stands for the Firestore document name; the
backend enumerates a collection in ascending `id` order.  `paymentStatus`
is `none` when the field is absent; `paid` models the truthiness of the
optional `paid` flag read by the `reportUtils` variant of the aggregator. -/
structure FsDoc where
  id : Nat
  userId : Nat
  amount : ℚ
  timestamp : JsDate
  paymentStatus : Option String
  paid : Bool
  deriving DecidableEq, Repr

/-- Result record of `calculateUserTotals`. -/
structure Totals where
  totalDeposits : ℚ
  totalLoans : ℚ
  paidLoansCount : Nat
  unpaidLoansCount : Nat
  deriving DecidableEq, Repr

namespace AnnualReports

/-- Function `calculateUserTotals` from `AnnualReports.jsx` (lines 52-66): sums the
`amount` fields with `reduce(..., 0)` and classifies loans by strict
equality of `paymentStatus` with the string `"approved"`. -/
def calculateUserTotals (deposits loans : List FsDoc) : Totals :=
  let totalDeposits := deposits.foldl (fun sum d => sum + d.amount) 0
  let totalLoans := loans.foldl (fun sum l => sum + l.amount) 0
  let paidLoansCount := (loans.filter (fun l => l.paymentStatus = some "approved")).length
  let unpaidLoansCount := (loans.filter (fun l => ¬ (l.paymentStatus = some "approved"))).length
  ⟨totalDeposits, totalLoans, paidLoansCount, unpaidLoansCount⟩

end AnnualReports

namespace ReportUtils

/-- Function `calculateUserTotals` from `reportUtils.js`: same sums, but loans are
classified by the truthiness of their `paid` flag. -/
def calculateUserTotals (deposits loans : List FsDoc) : Totals :=
  let totalDeposits := deposits.foldl (fun sum d => sum + d.amount) 0
  let totalLoans := loans.foldl (fun sum l => sum + l.amount) 0
  let paidLoansCount := (loans.filter (fun l => l.paid)).length
  let unpaidLoansCount := (loans.filter (fun l => ¬ l.paid)).length
  ⟨totalDeposits, totalLoans, paidLoansCount, unpaidLoansCount⟩

end ReportUtils

lemma foldl_add_eq_sum (f : FsDoc → ℚ) (l : List FsDoc) (a : ℚ) :
    l.foldl (fun sum d => sum + f d) a = a + (l.map f).sum := by
  induction l generalizing a with
  | nil => simp
  | cons x xs ih => simp [List.foldl_cons, ih, add_assoc]

lemma length_filter_pos_add_neg {α : Type} (p : α → Prop) [DecidablePred p]
    (l : List α) :
    (l.filter (fun a => p a)).length + (l.filter (fun a => ¬ p a)).length
      = l.length := by
  induction l with
  | nil => simp
  | cons x xs ih =>
    by_cases hx : p x <;> simp [List.filter_cons, hx, ← ih] <;> omega

/-- C2: `calculateUserTotals` returns the arithmetic sums of the `amount`
fields of the deposits list and of the loans list (both the live
`AnnualReports.jsx` version and the `reportUtils.js` utility version). -/
theorem calculateUserTotals_sums (deposits loans : List FsDoc) :
    (AnnualReports.calculateUserTotals deposits loans).totalDeposits
        = (deposits.map (·.amount)).sum ∧
    (AnnualReports.calculateUserTotals deposits loans).totalLoans
        = (loans.map (·.amount)).sum ∧
    (ReportUtils.calculateUserTotals deposits loans).totalDeposits
        = (deposits.map (·.amount)).sum ∧
    (ReportUtils.calculateUserTotals deposits loans).totalLoans
        = (loans.map (·.amount)).sum := by
  refine ⟨?_, ?_, ?_, ?_⟩ <;>
    simp [AnnualReports.calculateUserTotals, ReportUtils.calculateUserTotals,
      foldl_add_eq_sum]

/-- The example deposits list of the spec:
`[{amount: 3000}, {amount: 2000}]`. -/
def exampleDeposits : List FsDoc :=
  [⟨0, 0, 3000, ⟨2023, 1, 15, 0⟩, none, false⟩,
   ⟨1, 0, 2000, ⟨2023, 2, 20, 0⟩, none, false⟩]

/-- The example loans list of the spec:
`[{amount: 1000, paymentStatus: "approved"},
  {amount: 1000, paymentStatus: "pending"}]`. -/
def exampleLoans : List FsDoc :=
  [⟨2, 0, 1000, ⟨2023, 3, 10, 0⟩, some "approved", false⟩,
   ⟨3, 0, 1000, ⟨2023, 4, 5, 0⟩, some "pending", false⟩]

/-- C3: the live `calculateUserTotals` counts a loan as paid exactly when its
`paymentStatus` is the exact string `"approved"` (absent status counts as
unpaid), and on the spec's example input it returns
`{totalDeposits := 5000, totalLoans := 2000, paidLoansCount := 1,
  unpaidLoansCount := 1}`. -/
theorem calculateUserTotals_paid_classification (deposits loans : List FsDoc) :
    (AnnualReports.calculateUserTotals deposits loans).paidLoansCount
        = loans.countP (fun l => l.paymentStatus = some "approved") ∧
    (AnnualReports.calculateUserTotals deposits loans).unpaidLoansCount
        = loans.countP (fun l => ¬ (l.paymentStatus = some "approved")) ∧
    AnnualReports.calculateUserTotals exampleDeposits exampleLoans
        = ⟨5000, 2000, 1, 1⟩ := by
  refine ⟨?_, ?_, ?_⟩
  · simp [AnnualReports.calculateUserTotals, List.countP_eq_length_filter]
  · simp [AnnualReports.calculateUserTotals, List.countP_eq_length_filter]
  · simp only [AnnualReports.calculateUserTotals, exampleDeposits, exampleLoans]
    norm_num [List.filter]
    decide

/-- C4: the paid and unpaid loan counts partition the loans list, for the
live aggregator and for the `reportUtils.js` utility variant alike. -/
theorem calculateUserTotals_partition (deposits loans : List FsDoc) :
    (AnnualReports.calculateUserTotals deposits loans).paidLoansCount
        + (AnnualReports.calculateUserTotals deposits loans).unpaidLoansCount
        = loans.length ∧
    (ReportUtils.calculateUserTotals deposits loans).paidLoansCount
        + (ReportUtils.calculateUserTotals deposits loans).unpaidLoansCount
        = loans.length := by
  constructor
  · simpa [AnnualReports.calculateUserTotals] using
      length_filter_pos_add_neg (fun l : FsDoc => l.paymentStatus = some "approved") loans
  · simpa [ReportUtils.calculateUserTotals] using
      length_filter_pos_add_neg (fun l : FsDoc => l.paid = true) loans

namespace AnnualReports

/-- One insertion step of a stable descending-by-timestamp sort: the new
element goes after every already-placed element whose timestamp is `>=` its
own, exactly where `Array.prototype.sort` (stable, ES2019) puts it under the
comparator `(a, b) => dateB - dateA`. -/
def insertDesc (x : FsDoc) : List FsDoc → List FsDoc
  | [] => [x]
  | y :: ys =>
      if JsDate.leb x.timestamp y.timestamp then y :: insertDesc x ys
      else x :: y :: ys

/-- Stable sort, descending by timestamp: the order produced both by the
backend's `orderBy('timestamp', 'desc')` over its enumeration of the
matching documents and by the fallback's in-memory
`sort((a, b) => dateB - dateA)`.  Ties keep the enumeration order. -/
def sortDesc (l : List FsDoc) : List FsDoc :=
  l.foldl (fun acc x => insertDesc x acc) []

/-- Step `if (!data[u]) data[u] = []; data[u].push(doc)` — one step of building
the per-user map while iterating a query snapshot. -/
def pushDoc (acc : List (Nat × List FsDoc)) (d : FsDoc) : List (Nat × List FsDoc) :=
  match acc with
  | [] => [(d.userId, [d])]
  | (k, l) :: rest =>
      if k = d.userId then (k, l ++ [d]) :: rest
      else (k, l) :: pushDoc rest d

/-- Reading `data[u]` from the built map; a missing key reads as the empty
list (the caller substitutes `[]` for an absent user). -/
def lookupGroup (acc : List (Nat × List FsDoc)) (u : Nat) : List FsDoc :=
  match acc with
  | [] => []
  | (k, l) :: rest => if k = u then l else lookupGroup rest u

/-- The indexed path of `fetchDepositsForUsers` / `fetchLoansForUsers`
(lines 471-495 resp. 551-575): the backend returns the documents whose
`userId` is in the chunk and whose `timestamp` lies in `[startDate, endDate]`,
ordered descending by timestamp (ties in backend enumeration order), and the
snapshot is grouped per user in that order. -/
def fetchIndexed (coll : List FsDoc) (userIds : List Nat) (startDate endDate : JsDate) :
    List (Nat × List FsDoc) :=
  (sortDesc (coll.filter (fun d =>
      userIds.contains d.userId
        && JsDate.leb startDate d.timestamp
        && JsDate.leb d.timestamp endDate))).foldl pushDoc []

/-- The fallback path (lines 502-536 resp. 582-616): an equality-only query
returns the chunk's documents in backend enumeration order; each document is
kept only if its date lies in `[startDate, endDate]` and pushed into the
per-user map; finally every user's list is sorted descending in memory. -/
def fetchFallback (coll : List FsDoc) (userIds : List Nat) (startDate endDate : JsDate) :
    List (Nat × List FsDoc) :=
  let grouped :=
    ((coll.filter (fun d => userIds.contains d.userId)).filter (fun d =>
        JsDate.leb startDate d.timestamp && JsDate.leb d.timestamp endDate)).foldl
      pushDoc []
  grouped.map (fun p => (p.1, sortDesc p.2))

lemma lookupGroup_pushDoc (acc : List (Nat × List FsDoc)) (d : FsDoc) (u : Nat) :
    lookupGroup (pushDoc acc d) u
      = if d.userId = u then lookupGroup acc u ++ [d] else lookupGroup acc u := by
  induction acc with
  | nil =>
    by_cases h : d.userId = u <;> simp [pushDoc, lookupGroup, h]
  | cons p rest ih =>
    obtain ⟨k, l⟩ := p
    by_cases hk : k = d.userId
    · by_cases hu : k = u
      · have hdu : d.userId = u := (hk.symm.trans hu)
        simp [pushDoc, lookupGroup, hk, hu, hdu]
      · have hdu : ¬ d.userId = u := fun h => hu (hk.trans h)
        simp [pushDoc, lookupGroup, hk, hu, hdu]
    · by_cases hu : k = u
      · have hdu : ¬ d.userId = u := fun h => hk (hu.trans h.symm)
        have hud : ¬ u = d.userId := fun h => hdu h.symm
        simp [pushDoc, lookupGroup, hk, hu, hdu, hud]
      · simp [pushDoc, lookupGroup, hk, hu, ih]

lemma lookupGroup_foldl_pushDoc (docs : List FsDoc)
    (acc : List (Nat × List FsDoc)) (u : Nat) :
    lookupGroup (docs.foldl pushDoc acc) u
      = lookupGroup acc u ++ docs.filter (fun d => d.userId = u) := by
  induction docs generalizing acc with
  | nil => simp
  | cons d rest ih =>
    rw [List.foldl_cons, ih, lookupGroup_pushDoc]
    by_cases h : d.userId = u <;> simp [List.filter_cons, h]

lemma JsDate.leb_iff (a b : JsDate) : JsDate.leb a b = true ↔
    (a.year < b.year ∨ (a.year = b.year ∧ (a.month < b.month ∨ (a.month = b.month
      ∧ (a.day < b.day ∨ (a.day = b.day ∧ a.ms ≤ b.ms)))))) := by
  unfold JsDate.leb
  split_ifs <;> simp_all <;> omega

lemma JsDate.leb_of_not_leb {a b : JsDate} (h : ¬ JsDate.leb a b = true) :
    JsDate.leb b a = true := by
  rw [JsDate.leb_iff] at *
  omega

lemma JsDate.leb_trans {a b c : JsDate} (hab : JsDate.leb a b = true)
    (hbc : JsDate.leb b c = true) : JsDate.leb a c = true := by
  rw [JsDate.leb_iff] at *
  omega

/-- The stable-sort invariant: earlier elements have `>=` timestamps. -/
def SortedDescTs (l : List FsDoc) : Prop :=
  l.Pairwise (fun a b => JsDate.leb b.timestamp a.timestamp = true)

lemma mem_insertDesc {z x : FsDoc} {l : List FsDoc} :
    z ∈ insertDesc x l ↔ z = x ∨ z ∈ l := by
  induction l with
  | nil => simp [insertDesc]
  | cons y ys ih =>
    by_cases h : JsDate.leb x.timestamp y.timestamp <;>
      simp [insertDesc, h, ih] <;> tauto

lemma insertDesc_sorted {x : FsDoc} {l : List FsDoc} (hl : SortedDescTs l) :
    SortedDescTs (insertDesc x l) := by
  induction l with
  | nil => simp [insertDesc, SortedDescTs]
  | cons y ys ih =>
    rw [SortedDescTs, List.pairwise_cons] at hl
    obtain ⟨hy, hys⟩ := hl
    by_cases h : JsDate.leb x.timestamp y.timestamp
    · have h1 : insertDesc x (y :: ys) = y :: insertDesc x ys := by
        simp [insertDesc, h]
      rw [SortedDescTs, h1, List.pairwise_cons]
      refine ⟨?_, ih hys⟩
      intro z hz
      rcases mem_insertDesc.mp hz with rfl | hzys
      · exact h
      · exact hy z hzys
    · have h1 : insertDesc x (y :: ys) = x :: y :: ys := by
        simp [insertDesc, h]
      rw [SortedDescTs, h1, List.pairwise_cons]
      refine ⟨?_, List.pairwise_cons.mpr ⟨hy, hys⟩⟩
      intro z hz
      rcases List.mem_cons.mp hz with rfl | hzys
      · exact JsDate.leb_of_not_leb h
      · exact JsDate.leb_trans (hy z hzys) (JsDate.leb_of_not_leb h)

lemma insertDesc_of_gt {x : FsDoc} {l : List FsDoc}
    (h : ∀ z ∈ l, ¬ JsDate.leb x.timestamp z.timestamp = true) :
    insertDesc x l = x :: l := by
  cases l with
  | nil => rfl
  | cons z zs => simp [insertDesc, h z (List.mem_cons_self z zs)]

lemma filter_insertDesc (p : FsDoc → Bool) (x : FsDoc) {acc : List FsDoc}
    (hacc : SortedDescTs acc) :
    (insertDesc x acc).filter p
      = if p x then insertDesc x (acc.filter p) else acc.filter p := by
  induction acc with
  | nil => by_cases h : p x <;> simp [insertDesc, h]
  | cons y ys ih =>
    rw [SortedDescTs, List.pairwise_cons] at hacc
    obtain ⟨hy, hys⟩ := hacc
    have ih' := ih hys
    by_cases hle : JsDate.leb x.timestamp y.timestamp
    · by_cases hpy : p y <;> by_cases hpx : p x <;>
        simp [insertDesc, hle, List.filter_cons, hpy, hpx, ih']
    · by_cases hpx : p x
      · by_cases hpy : p y
        · simp [insertDesc, hle, List.filter_cons, hpy, hpx]
        · have hgt : ∀ z ∈ ys.filter p, ¬ JsDate.leb x.timestamp z.timestamp = true := by
            intro z hz hxz
            exact hle (JsDate.leb_trans hxz (hy z (List.mem_of_mem_filter hz)))
          simp [insertDesc, hle, List.filter_cons, hpy, hpx, insertDesc_of_gt hgt]
      · by_cases hpy : p y <;>
          simp [insertDesc, hle, List.filter_cons, hpy, hpx]

lemma foldl_insertDesc_sorted (l : List FsDoc) {acc : List FsDoc}
    (hacc : SortedDescTs acc) :
    SortedDescTs (l.foldl (fun acc x => insertDesc x acc) acc) := by
  induction l generalizing acc with
  | nil => exact hacc
  | cons x xs ih => exact ih (insertDesc_sorted hacc)

lemma filter_foldl_insertDesc (p : FsDoc → Bool) (l : List FsDoc)
    {acc : List FsDoc} (hacc : SortedDescTs acc) :
    (l.foldl (fun acc x => insertDesc x acc) acc).filter p
      = (l.filter p).foldl (fun acc x => insertDesc x acc) (acc.filter p) := by
  induction l generalizing acc with
  | nil => simp
  | cons x xs ih =>
    rw [List.foldl_cons, ih (insertDesc_sorted hacc), filter_insertDesc p x hacc]
    by_cases h : p x <;> simp [List.filter_cons, h]

lemma filter_sortDesc (p : FsDoc → Bool) (l : List FsDoc) :
    (sortDesc l).filter p = sortDesc (l.filter p) := by
  have h0 : SortedDescTs [] := List.Pairwise.nil
  simpa [sortDesc] using filter_foldl_insertDesc p l h0

lemma lookupGroup_map_sortDesc (m : List (Nat × List FsDoc)) (u : Nat) :
    lookupGroup (m.map (fun p => (p.1, sortDesc p.2))) u
      = sortDesc (lookupGroup m u) := by
  induction m with
  | nil => simp [lookupGroup, sortDesc]
  | cons p rest ih =>
    obtain ⟨k, l⟩ := p
    by_cases h : k = u <;> simp [lookupGroup, h, ih]

end AnnualReports

/-- C1: for every collection state, chunk of user identifiers and closed date
interval, the fallback path of `fetchDepositsForUsers` — equality-only query,
in-memory date filtering, in-memory stable descending sort — yields, per
user, exactly the record list the indexed range+order query yields on the
same underlying records.  `fetchLoansForUsers` is word-for-word the same
code over the `loans` collection, so the statement covers both. -/
theorem fetch_fallback_equiv_indexed (coll : List FsDoc) (userIds : List Nat)
    (startDate endDate : JsDate) (u : Nat) :
    AnnualReports.lookupGroup
        (AnnualReports.fetchFallback coll userIds startDate endDate) u
      = AnnualReports.lookupGroup
        (AnnualReports.fetchIndexed coll userIds startDate endDate) u := by
  unfold AnnualReports.fetchFallback AnnualReports.fetchIndexed
  rw [AnnualReports.lookupGroup_map_sortDesc, AnnualReports.lookupGroup_foldl_pushDoc,
    AnnualReports.lookupGroup_foldl_pushDoc, AnnualReports.filter_sortDesc]
  simp only [AnnualReports.lookupGroup, List.nil_append]
  congr 1
  rw [List.filter_filter, List.filter_filter, List.filter_filter]
  apply List.filter_congr
  intro a _
  cases userIds.contains a.userId <;>
    cases JsDate.leb startDate a.timestamp <;>
    cases JsDate.leb a.timestamp endDate <;>
    cases hu : (decide (a.userId = u)) <;>
    simp [hu]

namespace AnnualReports

/-- Gregorian leap-year rule used by the JS `Date` calendar. -/
def isLeapYear (y : Int) : Bool :=
  (y % 4 = 0 && y % 100 ≠ 0) || y % 400 = 0

/-- Days in a (1-based) month of the JS `Date` calendar. -/
def daysInMonth (y : Int) (m : Nat) : Nat :=
  if m = 2 then (if isLeapYear y then 29 else 28)
  else if m = 4 || m = 6 || m = 9 || m = 11 then 30
  else 31

/-- Source `getStartOfMonth(year, month) = new Date(year, month - 1, 1)`:
midnight local time on the first day of the month. -/
def getStartOfMonth (year : Int) (month : Nat) : JsDate :=
  ⟨year, month, 1, 0⟩

/-- Source `getEndOfMonth(year, month) = new Date(year, month, 0)`: day `0` of the
next 0-based month, i.e. midnight local time on the *last day* of `month` —
not the end of that day. -/
def getEndOfMonth (year : Int) (month : Nat) : JsDate :=
  ⟨year, month, daysInMonth year month, 0⟩

/-- Label `format(monthStart, 'MMM')` for the twelve month starts. -/
def monthName (m : Nat) : String :=
  match m with
  | 1 => "Jan" | 2 => "Feb" | 3 => "Mar" | 4 => "Apr"
  | 5 => "May" | 6 => "Jun" | 7 => "Jul" | 8 => "Aug"
  | 9 => "Sep" | 10 => "Oct" | 11 => "Nov" | 12 => "Dec"
  | _ => ""

/-- One element of the array built by `groupDataByMonth`. -/
structure MonthBucket where
  month : String
  deposits : ℚ
  loans : ℚ
  deriving DecidableEq, Repr

/-- Function `groupDataByMonth` from `AnnualReports.jsx` (lines 108-133): for each of
the twelve months, keep the records with
`monthStart <= date && date <= monthEnd` and sum their amounts. -/
def groupDataByMonth (deposits loans : List FsDoc) (year : Int) :
    List MonthBucket :=
  (List.range 12).map (fun i =>
    let month := i + 1
    let monthStart := getStartOfMonth year month
    let monthEnd := getEndOfMonth year month
    let monthDeposits := deposits.filter (fun d =>
      JsDate.leb monthStart d.timestamp && JsDate.leb d.timestamp monthEnd)
    let monthLoans := loans.filter (fun l =>
      JsDate.leb monthStart l.timestamp && JsDate.leb l.timestamp monthEnd)
    ⟨monthName month,
     monthDeposits.foldl (fun sum d => sum + d.amount) 0,
     monthLoans.foldl (fun sum l => sum + l.amount) 0⟩)

/-- A deposit of `$3000` on Jan 31 of the report year at 12:00 local time:
inside the calendar year, but excluded from every month bucket because
January's bucket closes at midnight on Jan 31. -/
def noonJan31Deposit : FsDoc :=
  ⟨0, 0, 3000, ⟨2023, 1, 31, 43200000⟩, none, false⟩

end AnnualReports

/-- C5 (failing-input evaluation): `groupDataByMonth` does produce exactly
twelve buckets, but for a deposit timestamped Jan 31, 12:00 of the selected
year the twelve per-month deposit totals sum to `0`, while the total deposit
amount of the records whose timestamp falls within that calendar year is
`3000` — the bucket boundary `getEndOfMonth` is midnight at the *start* of
the month's last day, so the rest of that day belongs to no bucket. -/
theorem groupDataByMonth_drops_month_end_afternoon :
    (AnnualReports.groupDataByMonth [AnnualReports.noonJan31Deposit] [] 2023).length = 12 ∧
    ((AnnualReports.groupDataByMonth [AnnualReports.noonJan31Deposit] [] 2023).map
        (·.deposits)).sum = 0 ∧
    (([AnnualReports.noonJan31Deposit].filter
        (fun d => d.timestamp.year = 2023)).map (·.amount)).sum = 3000 ∧
    (0 : ℚ) ≠ 3000 := by
  refine ⟨by simp [AnnualReports.groupDataByMonth], ?_, ?_, by norm_num⟩
  · simp only [AnnualReports.groupDataByMonth, AnnualReports.noonJan31Deposit,
      AnnualReports.getStartOfMonth, AnnualReports.getEndOfMonth]
    norm_num [List.range_succ, List.filter, JsDate.leb, AnnualReports.daysInMonth,
      AnnualReports.isLeapYear]
  · norm_num [List.filter, AnnualReports.noonJan31Deposit]

namespace AnnualReports

/-- Count `Math.ceil(data.length / itemsPerPage)` — exact on the rationals. -/
def totalPages (n itemsPerPage : Nat) : Nat :=
  ⌈(n : ℚ) / (itemsPerPage : ℚ)⌉₊

/-- Slice `data.slice(startIndex, endIndex)` with
`startIndex = (page - 1) * itemsPerPage` and
`endIndex = startIndex + itemsPerPage`. -/
def pageSlice {α : Type} (data : List α) (itemsPerPage page : Nat) : List α :=
  (data.drop ((page - 1) * itemsPerPage)).take itemsPerPage

/-- The pagination state of `PaginatedTable` / `AnnualReportsPage`. -/
structure PagerState (α : Type) where
  data : List α
  currentPage : Nat

/-- The UI events that can change the current page: the Previous and Next
buttons, a direct page button (only pages `1..totalPages` are rendered, and
no controls are rendered at all unless `totalPages > 1`), and a change of
the underlying filtered list (the `useEffect` keyed on `filteredUsers.length`
resets the page to 1 whenever the length changes). -/
inductive PagerEvent (α : Type) where
  | clickPrev
  | clickNext
  | clickPage (k : Nat)
  | setData (d : List α)

/-- One state transition of the pagination component. -/
def pagerStep {α : Type} (itemsPerPage : Nat) (s : PagerState α) :
    PagerEvent α → PagerState α
  | .clickPrev =>
      if 1 < totalPages s.data.length itemsPerPage then
        ⟨s.data, max (s.currentPage - 1) 1⟩
      else s
  | .clickNext =>
      if 1 < totalPages s.data.length itemsPerPage then
        ⟨s.data, min (s.currentPage + 1) (totalPages s.data.length itemsPerPage)⟩
      else s
  | .clickPage k =>
      if 1 < totalPages s.data.length itemsPerPage
          ∧ 1 ≤ k ∧ k ≤ totalPages s.data.length itemsPerPage then
        ⟨s.data, k⟩
      else s
  | .setData d =>
      ⟨d, if d.length = s.data.length then s.currentPage else 1⟩

/-- States reachable from the initial state (`useState(1)`) by UI events. -/
inductive PagerReachable {α : Type} (itemsPerPage : Nat) (init : List α) :
    PagerState α → Prop where
  | init : PagerReachable itemsPerPage init ⟨init, 1⟩
  | step {s : PagerState α} (e : PagerEvent α) :
      PagerReachable itemsPerPage init s →
      PagerReachable itemsPerPage init (pagerStep itemsPerPage s e)

lemma totalPages_eq_ceilDiv (n itemsPerPage : Nat) (h : 0 < itemsPerPage) :
    totalPages n itemsPerPage = (n + itemsPerPage - 1) / itemsPerPage := by
  rcases Nat.eq_zero_or_pos n with hn | hn
  · subst hn
    simp [totalPages, Nat.div_eq_of_lt (Nat.sub_lt h Nat.one_pos)]
  · have hsq : (0 : ℚ) < (itemsPerPage : ℚ) := by exact_mod_cast h
    set q := (n + itemsPerPage - 1) / itemsPerPage with hqdef
    set r := (n + itemsPerPage - 1) % itemsPerPage with hrdef
    have hdm : itemsPerPage * q + r = n + itemsPerPage - 1 := Nat.div_add_mod _ _
    have hr : r < itemsPerPage := Nat.mod_lt _ h
    have hq1 : 1 ≤ q := by
      rcases Nat.eq_zero_or_pos q with h0 | h1
      · rw [h0, Nat.mul_zero] at hdm
        omega
      · exact h1
    have hub : n ≤ q * itemsPerPage := by
      rw [Nat.mul_comm] at hdm
      omega
    have hsplit : (q - 1) * itemsPerPage + itemsPerPage = q * itemsPerPage := by
      have hq1' : q - 1 + 1 = q := by omega
      calc (q - 1) * itemsPerPage + itemsPerPage = (q - 1 + 1) * itemsPerPage := by
            rw [Nat.succ_mul]
        _ = q * itemsPerPage := by rw [hq1']
    have hlb : (q - 1) * itemsPerPage < n := by
      rw [Nat.mul_comm] at hdm
      omega
    show (⌈(n : ℚ) / (itemsPerPage : ℚ)⌉₊ : ℕ) = q
    rw [Nat.ceil_eq_iff (by omega : q ≠ 0)]
    constructor
    · rw [lt_div_iff hsq]
      exact_mod_cast hlb
    · rw [div_le_iff hsq]
      exact_mod_cast hub

end AnnualReports

namespace AnnualReports

lemma le_totalPages_mul (n itemsPerPage : Nat) (h : 0 < itemsPerPage) :
    n ≤ totalPages n itemsPerPage * itemsPerPage := by
  rw [totalPages_eq_ceilDiv n itemsPerPage h]
  set q := (n + itemsPerPage - 1) / itemsPerPage with hqdef
  have hdm : itemsPerPage * q + (n + itemsPerPage - 1) % itemsPerPage
      = n + itemsPerPage - 1 := Nat.div_add_mod _ _
  have hr : (n + itemsPerPage - 1) % itemsPerPage < itemsPerPage := Nat.mod_lt _ h
  rw [Nat.mul_comm] at hdm
  omega

lemma join_pageSlices {α : Type} (data : List α) (itemsPerPage : Nat)
    (k : Nat) :
    ((List.range k).map (fun i => pageSlice data itemsPerPage (i + 1))).flatten
      = data.take (k * itemsPerPage) := by
  induction k with
  | zero => simp
  | succ k ih =>
    rw [List.range_succ, List.map_append, List.flatten_append, ih]
    simp only [List.map_cons, List.map_nil, List.flatten_cons, List.flatten_nil,
      List.append_nil, pageSlice, Nat.add_sub_cancel]
    rw [Nat.succ_mul, List.take_add]

/-- The clamping invariant: every state the pagination component can reach
has `currentPage` in `[1, max totalPages 1]`. -/
lemma pager_invariant {α : Type} (itemsPerPage : Nat) (init : List α)
    (s : PagerState α) (hs : PagerReachable itemsPerPage init s) :
    1 ≤ s.currentPage
      ∧ s.currentPage ≤ max (totalPages s.data.length itemsPerPage) 1 := by
  induction hs with
  | init => simp
  | @step t e ht ih =>
    obtain ⟨ih1, ih2⟩ := ih
    rw [Nat.max_def] at ih2
    cases e with
    | clickPrev =>
      by_cases htp : 1 < totalPages t.data.length itemsPerPage <;>
        simp only [pagerStep, htp, if_pos, if_neg, if_true, if_false,
          reduceIte, Nat.max_def] <;>
        split_ifs <;> simp_all <;> omega
    | clickNext =>
      by_cases htp : 1 < totalPages t.data.length itemsPerPage <;>
        simp only [pagerStep, htp, if_pos, if_neg, if_true, if_false,
          reduceIte, Nat.max_def] <;>
        split_ifs <;> simp_all <;> omega
    | clickPage k =>
      by_cases hk : 1 < totalPages t.data.length itemsPerPage
          ∧ 1 ≤ k ∧ k ≤ totalPages t.data.length itemsPerPage <;>
        simp only [pagerStep, hk, if_pos, if_neg, if_true, if_false,
          reduceIte, Nat.max_def] <;>
        split_ifs <;> simp_all <;> omega
    | setData d =>
      by_cases hd : d.length = t.data.length <;>
        simp only [pagerStep, hd, if_pos, if_neg, if_true, if_false,
          reduceIte, Nat.max_def] <;>
        split_ifs <;> simp_all <;> omega

end AnnualReports

/-- C6: pagination of a data sequence of length `n` with a positive page
size computes `totalPages = ceil(n / pageSize)`; every state reachable
through the UI keeps the current 1-based page clamped in
`[1, max totalPages 1]` (including after the data list shrinks, via the
length-keyed reset effect); and concatenating the slices of pages
`1..totalPages` reconstructs the data sequence exactly. -/
theorem pagination_properties {α : Type} (data : List α) (itemsPerPage : Nat)
    (h : 0 < itemsPerPage) :
    AnnualReports.totalPages data.length itemsPerPage
        = (data.length + itemsPerPage - 1) / itemsPerPage ∧
    (∀ s : AnnualReports.PagerState α,
        AnnualReports.PagerReachable itemsPerPage data s →
        1 ≤ s.currentPage
          ∧ s.currentPage
              ≤ max (AnnualReports.totalPages s.data.length itemsPerPage) 1) ∧
    ((List.range (AnnualReports.totalPages data.length itemsPerPage)).map
        (fun i => AnnualReports.pageSlice data itemsPerPage (i + 1))).flatten
      = data := by
  refine ⟨AnnualReports.totalPages_eq_ceilDiv _ _ h,
    fun s hs => AnnualReports.pager_invariant _ _ s hs, ?_⟩
  rw [AnnualReports.join_pageSlices]
  exact List.take_of_length_le (AnnualReports.le_totalPages_mul _ _ h)

/-- Witness for C6 at `data = [10, 20, 30]`, `itemsPerPage = 2`: the page
count is `2`, the state after one Next click satisfies the clamping
invariant, and the two slices concatenate back to the data. -/
theorem pagination_properties_witness :
    0 < 2 ∧
    AnnualReports.totalPages ([10, 20, 30] : List ℕ).length 2 = (3 + 2 - 1) / 2 ∧
    (1 ≤ (AnnualReports.pagerStep 2 ⟨[10, 20, 30], 1⟩
            AnnualReports.PagerEvent.clickNext).currentPage ∧
      (AnnualReports.pagerStep 2 ⟨[10, 20, 30], 1⟩
            AnnualReports.PagerEvent.clickNext).currentPage
        ≤ max (AnnualReports.totalPages
            (AnnualReports.pagerStep 2 (⟨[10, 20, 30], 1⟩ :
              AnnualReports.PagerState ℕ)
              AnnualReports.PagerEvent.clickNext).data.length 2) 1) ∧
    ((List.range (AnnualReports.totalPages ([10, 20, 30] : List ℕ).length 2)).map
        (fun i => AnnualReports.pageSlice [10, 20, 30] 2 (i + 1))).flatten
      = [10, 20, 30] := by
  have h := pagination_properties ([10, 20, 30] : List ℕ) 2 (by decide)
  exact ⟨by decide, h.1, h.2.1 _ (AnnualReports.PagerReachable.step
    AnnualReports.PagerEvent.clickNext AnnualReports.PagerReachable.init), h.2.2⟩

/-- A JavaScript number as far as the interest-rate form can observe it:
`NaN`, the two infinities, or a finite value (exact rational model). -/
inductive JsNum where
  | nan
  | posInf
  | negInf
  | val (q : ℚ)
  deriving DecidableEq, Repr

/-- Comparison `a < b` in JS: any comparison involving `NaN` is false. -/
def jsLt : JsNum → JsNum → Bool
  | .nan, _ => false
  | _, .nan => false
  | .negInf, .negInf => false
  | .negInf, _ => true
  | _, .negInf => false
  | .posInf, _ => false
  | _, .posInf => true
  | .val a, .val b => a < b

/-- ECMAScript StrWhiteSpace characters (ASCII range; the Unicode space
characters are not used by any input this development evaluates). -/
def isJsWhitespace (c : Char) : Bool :=
  c = ' ' || c = '\t' || c = '\n' || c = '\r' || c = '\x0b' || c = '\x0c'

/-- Trim JS whitespace from both ends of a character list. -/
def trimWs (l : List Char) : List Char :=
  ((l.dropWhile isJsWhitespace).reverse.dropWhile isJsWhitespace).reverse

/-- Value of a digit run in a given radix, left to right. -/
def digitsToNat (radix : Nat) (val : Char → Nat) (ds : List Char) : Nat :=
  ds.foldl (fun a c => a * radix + val c) 0

/-- Decimal digit value. -/
def decDigitVal (c : Char) : Nat := c.toNat - 48

/-- Value of a fractional digit run: `ds` read as `0.ds`. -/
def fracValue (ds : List Char) : ℚ :=
  (digitsToNat 10 decDigitVal ds : ℚ) / (10 : ℚ) ^ ds.length

/-- Parse an ExponentPart (`e`/`E`, optional sign, at least one digit);
`none` when the characters do not form a complete exponent (in which case
they are left unconsumed, as in `parseFloat("12e+x") = 12`). -/
def parseExponent (l : List Char) : Option (Int × List Char) :=
  match l with
  | [] => none
  | c :: rest =>
    if c = 'e' || c = 'E' then
      let signed : Int × List Char :=
        match rest with
        | '+' :: r => (1, r)
        | '-' :: r => (-1, r)
        | r => (1, r)
      let ds := signed.2.takeWhile Char.isDigit
      let r3 := signed.2.dropWhile Char.isDigit
      if ds.isEmpty then none
      else some (signed.1 * (digitsToNat 10 decDigitVal ds : Int), r3)
    else none

/-- Parse an unsigned finite DecimalLiteral prefix
(`Digits [. Digits] [Exp]` or `. Digits [Exp]`), returning its exact value
and the unconsumed remainder. -/
def parseUnsignedDecimal (l : List Char) : Option (ℚ × List Char) :=
  let ds := l.takeWhile Char.isDigit
  let r1 := l.dropWhile Char.isDigit
  match ds, r1 with
  | [], '.' :: r2 =>
      let fs := r2.takeWhile Char.isDigit
      let r3 := r2.dropWhile Char.isDigit
      if fs.isEmpty then none
      else
        match parseExponent r3 with
        | some (e, r4) => some (fracValue fs * (10 : ℚ) ^ e, r4)
        | none => some (fracValue fs, r3)
  | [], _ => none
  | _, _ =>
      let intPart : ℚ := (digitsToNat 10 decDigitVal ds : ℚ)
      match r1 with
      | '.' :: r2 =>
          let fs := r2.takeWhile Char.isDigit
          let r3 := r2.dropWhile Char.isDigit
          match parseExponent r3 with
          | some (e, r4) => some ((intPart + fracValue fs) * (10 : ℚ) ^ e, r4)
          | none => some (intPart + fracValue fs, r3)
      | _ =>
          match parseExponent r1 with
          | some (e, r2) => some (intPart * (10 : ℚ) ^ e, r2)
          | none => some (intPart, r1)

/-- Parse a StrDecimalLiteral prefix after an optional sign: `Infinity` or a
finite decimal. `sign` is `1` or `-1`. -/
def parseAfterSign (sign : ℚ) (r : List Char) : Option (JsNum × List Char) :=
  if r.take 8 = "Infinity".toList then
    some (if sign = 1 then JsNum.posInf else JsNum.negInf, r.drop 8)
  else
    match parseUnsignedDecimal r with
    | some (q, rest) => some (JsNum.val (sign * q), rest)
    | none => none

/-- Parse a StrDecimalLiteral prefix (optional sign, then `Infinity` or a
finite decimal literal). -/
def parseSignedDecimal (l : List Char) : Option (JsNum × List Char) :=
  match l with
  | '+' :: r => parseAfterSign 1 r
  | '-' :: r => parseAfterSign (-1) r
  | r => parseAfterSign 1 r

/-- Semantics of `parseFloat(string)`: skip leading whitespace, take the longest prefix
that is a StrDecimalLiteral, ignore everything after it; `NaN` when no
prefix parses.  Values are exact rationals (no IEEE rounding; the
comparisons this development performs are unaffected). -/
def jsParseFloat (s : String) : JsNum :=
  match parseSignedDecimal (s.toList.dropWhile isJsWhitespace) with
  | some (v, _) => v
  | none => JsNum.nan

def isHexDigit (c : Char) : Bool :=
  c.isDigit || ('a' ≤ c && c ≤ 'f') || ('A' ≤ c && c ≤ 'F')

def hexDigitVal (c : Char) : Nat :=
  if c.isDigit then c.toNat - 48
  else if 'a' ≤ c && c ≤ 'f' then c.toNat - 87
  else c.toNat - 55

def isOctDigit (c : Char) : Bool := '0' ≤ c && c ≤ '7'

def isBinDigit (c : Char) : Bool := c = '0' || c = '1'

/-- A full-string radix literal (after the `0x`/`0o`/`0b` tag): `NaN`
unless there is at least one digit and nothing else. -/
def radixFull (radix : Nat) (isD : Char → Bool) (val : Char → Nat)
    (l : List Char) : JsNum :=
  let ds := l.takeWhile isD
  let rest := l.dropWhile isD
  if ds.isEmpty || ¬ rest.isEmpty then JsNum.nan
  else JsNum.val (digitsToNat radix val ds : ℚ)

/-- Semantics of `ToNumber(string)` (i.e. of `Number(s)` and hence of
`isNaN(s)`): trim whitespace; the empty remainder is `0`; otherwise the
whole remainder must be a StrNumericLiteral — a signed decimal or
`Infinity`, or an unsigned `0x`/`0o`/`0b` radix literal — else `NaN`. -/
def jsToNumber (s : String) : JsNum :=
  let t := trimWs s.toList
  if t.isEmpty then JsNum.val 0
  else
    let nonDec : Option JsNum :=
      match t with
      | '0' :: c :: rest =>
        if c = 'x' || c = 'X' then some (radixFull 16 isHexDigit hexDigitVal rest)
        else if c = 'o' || c = 'O' then some (radixFull 8 isOctDigit (fun d => d.toNat - 48) rest)
        else if c = 'b' || c = 'B' then some (radixFull 2 isBinDigit (fun d => d.toNat - 48) rest)
        else none
      | _ => none
    match nonDec with
    | some v => v
    | none =>
      match parseSignedDecimal t with
      | some (v, []) => v
      | _ => JsNum.nan

/-- A document of the `interest` collection. -/
structure InterestRec where
  id : Nat
  interest : JsNum
  timestamp : ℚ
  deriving DecidableEq, Repr

/-- Outcome of one run of `handleSave`. -/
inductive SaveOutcome where
  | invalidInput
  | rangeError
  | saved
  deriving DecidableEq, Repr

namespace AdminInterestSettings

/-- Function `handleSave` from the interest-settings page: reject when the input
string is falsy or `isNaN(interest)`; parse with `parseFloat`; throw (before
any write) when the parsed value is `< 0` or `> 100`; otherwise
`updateDoc` the document named by `interestDocId` with the new rate and a
fresh timestamp, or `setDoc` a new document when no id was loaded.  `now`
is the clock value of `new Date()` and `freshId` the name Firestore draws
for `doc(collection(db, "interest"))`. -/
def handleSave (interest : String) (interestDocId : Option Nat)
    (coll : List InterestRec) (now : ℚ) (freshId : Nat) :
    SaveOutcome × List InterestRec :=
  if interest = "" || jsToNumber interest = JsNum.nan then
    (SaveOutcome.invalidInput, coll)
  else if jsLt (jsParseFloat interest) (JsNum.val 0)
      || jsLt (JsNum.val 100) (jsParseFloat interest) then
    (SaveOutcome.rangeError, coll)
  else
    match interestDocId with
    | some id =>
        (SaveOutcome.saved,
         coll.map (fun r =>
           if r.id = id then ⟨r.id, jsParseFloat interest, now⟩ else r))
    | none =>
        (SaveOutcome.saved, coll ++ [⟨freshId, jsParseFloat interest, now⟩])

end AdminInterestSettings

/-- C7 (failing-input evaluation): on the whitespace-only input `" "` the
validation guard passes — `Number(" ")` is `0`, so `isNaN` is false — but
`parseFloat(" ")` is `NaN`, which also passes the range check because `NaN`
comparisons are false; `handleSave` therefore reaches the write and stores
`{interest: NaN}` over the loaded document instead of rejecting the
non-numeric input without a write. -/
theorem handleSave_whitespace_writes_nan :
    jsToNumber " " = JsNum.val 0 ∧
    jsParseFloat " " = JsNum.nan ∧
    AdminInterestSettings.handleSave " " (some 7) [⟨7, JsNum.val 5, 0⟩] 1 8
      = (SaveOutcome.saved, [⟨7, JsNum.nan, 1⟩]) := by
  refine ⟨rfl, rfl, rfl⟩

/-- C8 (counterexample): a successful save with a loaded document id does
*not* append a record — it overwrites the loaded record in place, so the
previously stored rate `5` is gone and the history length is unchanged. -/
theorem handleSave_overwrites_existing :
    (AdminInterestSettings.handleSave "10" (some 7)
        [⟨7, JsNum.val 5, 0⟩] 1 8).1 = SaveOutcome.saved ∧
    (AdminInterestSettings.handleSave "10" (some 7)
        [⟨7, JsNum.val 5, 0⟩] 1 8).2 = [⟨7, JsNum.val 10, 1⟩] ∧
    (⟨7, JsNum.val 5, 0⟩ : InterestRec) ∉
      (AdminInterestSettings.handleSave "10" (some 7)
        [⟨7, JsNum.val 5, 0⟩] 1 8).2 ∧
    ((AdminInterestSettings.handleSave "10" (some 7)
        [⟨7, JsNum.val 5, 0⟩] 1 8).2).length
      = ([⟨7, JsNum.val 5, 0⟩] : List InterestRec).length := by
  have hpf : jsParseFloat "10" = JsNum.val 10 := by
    have h : digitsToNat 10 decDigitVal ['1', '0'] = 10 := by decide
    norm_num +decide [jsParseFloat, isJsWhitespace, parseSignedDecimal,
      parseAfterSign, parseUnsignedDecimal, parseExponent, h]
  have htn : jsToNumber "10" = JsNum.val 10 := by
    have h : digitsToNat 10 decDigitVal ['1', '0'] = 10 := by decide
    norm_num +decide [jsToNumber, trimWs, isJsWhitespace, parseSignedDecimal,
      parseAfterSign, parseUnsignedDecimal, parseExponent, h]
  have hrun : AdminInterestSettings.handleSave "10" (some 7)
      [⟨7, JsNum.val 5, 0⟩] 1 8 = (SaveOutcome.saved, [⟨7, JsNum.val 10, 1⟩]) := by
    norm_num +decide [AdminInterestSettings.handleSave, hpf, htn, jsLt]
  refine ⟨by rw [hrun], by rw [hrun], ?_, by rw [hrun]; rfl⟩
  rw [hrun]
  simp only [List.mem_singleton]
  intro hmem
  have : JsNum.val 5 = JsNum.val 10 := congrArg InterestRec.interest hmem
  simp only [JsNum.val.injEq] at this
  norm_num at this

/-- C8 (amended): a successful `handleSave` appends a fresh timestamped
record exactly when no interest document was loaded (`interestDocId` null);
when a document id was loaded it overwrites that document in place with the
new rate and timestamp, leaving the history length unchanged. -/
theorem handleSave_update_or_append (input : String) (docId : Option Nat)
    (coll : List InterestRec) (now : ℚ) (freshId : Nat)
    (hsaved : (AdminInterestSettings.handleSave input docId coll now freshId).1
      = SaveOutcome.saved) :
    (docId = none →
      (AdminInterestSettings.handleSave input docId coll now freshId).2
        = coll ++ [⟨freshId, jsParseFloat input, now⟩]) ∧
    (∀ id, docId = some id →
      (AdminInterestSettings.handleSave input docId coll now freshId).2
        = coll.map (fun r =>
            if r.id = id then ⟨r.id, jsParseFloat input, now⟩ else r) ∧
      ((AdminInterestSettings.handleSave input docId coll now freshId).2).length
        = coll.length) := by
  unfold AdminInterestSettings.handleSave at *
  by_cases h1 : input = "" || jsToNumber input = JsNum.nan
  · simp [h1] at hsaved
  · by_cases h2 : jsLt (jsParseFloat input) (JsNum.val 0)
        || jsLt (JsNum.val 100) (jsParseFloat input)
    · simp [h1, h2] at hsaved
    · cases docId with
      | none => simp [h1, h2]
      | some id => simp [h1, h2]

/-- Witness for C8's amended theorem: saving `"10"` over the loaded document
`7` rewrites that document to rate `10` at the new timestamp and keeps the
history at one record. -/
theorem handleSave_update_or_append_witness :
    (AdminInterestSettings.handleSave "10" (some 9)
        [⟨9, JsNum.val 5, 0⟩, ⟨4, JsNum.val 3, -1⟩] 1 8).2
      = ([⟨9, JsNum.val 5, 0⟩, ⟨4, JsNum.val 3, -1⟩] : List InterestRec).map
          (fun r => if r.id = 9 then ⟨r.id, jsParseFloat "10", 1⟩ else r) ∧
    ((AdminInterestSettings.handleSave "10" (some 9)
        [⟨9, JsNum.val 5, 0⟩, ⟨4, JsNum.val 3, -1⟩] 1 8).2).length = 2 := by
  have htn : jsToNumber "10" = JsNum.val 10 := by
    have h : digitsToNat 10 decDigitVal ['1', '0'] = 10 := by decide
    norm_num +decide [jsToNumber, trimWs, isJsWhitespace, parseSignedDecimal,
      parseAfterSign, parseUnsignedDecimal, parseExponent, h]
  have hpf : jsParseFloat "10" = JsNum.val 10 := by
    have h : digitsToNat 10 decDigitVal ['1', '0'] = 10 := by decide
    norm_num +decide [jsParseFloat, isJsWhitespace, parseSignedDecimal,
      parseAfterSign, parseUnsignedDecimal, parseExponent, h]
  have hsaved : (AdminInterestSettings.handleSave "10" (some 9)
      [⟨9, JsNum.val 5, 0⟩, ⟨4, JsNum.val 3, -1⟩] 1 8).1 = SaveOutcome.saved := by
    norm_num +decide [AdminInterestSettings.handleSave, hpf, htn, jsLt]
  have h := (handleSave_update_or_append "10" (some 9)
      [⟨9, JsNum.val 5, 0⟩, ⟨4, JsNum.val 3, -1⟩] 1 8 hsaved).2 9 rfl
  exact ⟨h.1, by rw [h.2]; rfl⟩

/-- The fields of a user document the export and report code reads. -/
structure UserInfo where
  name : Option String
  email : Option String
  phone : Option String
  deriving DecidableEq, Repr

/-- The aggregated per-user report record consumed by the exporters. -/
structure UserReport where
  user : UserInfo
  deposits : List FsDoc
  loans : List FsDoc
  totalDeposits : ℚ
  totalLoans : ℚ
  paidLoansCount : Nat
  unpaidLoansCount : Nat

/-- JS `x || dflt` on an optional string field: absent and `""` are falsy. -/
def jsOrDefault (v : Option String) (dflt : String) : String :=
  match v with
  | none => dflt
  | some s => if s = "" then dflt else s

/-- Function `getStatusText` from `exportToPDF.js`: `"PAID"` for the exact status
`"approved"`, the upper-cased status for any other truthy status, and
`"UNPAID"` for an absent (or empty, hence falsy) status. -/
def getStatusText (paymentStatus : Option String) : String :=
  if paymentStatus = some "approved" then "PAID"
  else
    match paymentStatus with
    | some s => if s = "" then "UNPAID" else s.toUpper
    | none => "UNPAID"

/-- The drawing phases of `exportToPDF`, in source order, carrying the data
each phase renders.  Currency/date string formatting is the PDF library's
concern and is not re-modelled; a phase carries the raw values it formats. -/
inductive PdfStep where
  | titlePage (totalUsers : Nat) (totalDeposits totalLoans : ℚ)
      (totalPaidLoans totalUnpaidLoans : Nat)
  | summaryTable (rows : List (String × ℚ × Nat × Nat × ℚ))
  | userDetail (name email phone : String)
      (depositRows : List (ℚ × JsDate))
      (loanRows : List (ℚ × JsDate × String))
  | save (filename : String)

/-- The generation phases of `exportToPDF(userReports, year)`: title page
with the reduce-computed summary statistics, the all-users summary table,
one detail section per report, and the final `doc.save` with the dynamic
filename. -/
def genSteps (userReports : List UserReport) (year : Int) : List PdfStep :=
  PdfStep.titlePage userReports.length
      (userReports.foldl (fun s r => s + r.totalDeposits) 0)
      (userReports.foldl (fun s r => s + r.totalLoans) 0)
      (userReports.foldl (fun s r => s + r.paidLoansCount) 0)
      (userReports.foldl (fun s r => s + r.unpaidLoansCount) 0)
    :: PdfStep.summaryTable (userReports.map fun r =>
        (jsOrDefault r.user.name "Unknown User", r.totalDeposits,
         r.paidLoansCount, r.unpaidLoansCount, r.totalLoans))
    :: (userReports.map fun r => PdfStep.userDetail
          (jsOrDefault r.user.name "Unknown User")
          (jsOrDefault r.user.email "N/A")
          (jsOrDefault r.user.phone "N/A")
          (r.deposits.map fun d => (d.amount, d.timestamp))
          (r.loans.map fun l => (l.amount, l.timestamp, getStatusText l.paymentStatus)))
    ++ [PdfStep.save ("annual-reports-" ++ toString year ++ ".pdf")]

/-- Run the generation phases against a PDF backend; each library call may
raise, and the first raise aborts the remaining phases (the behaviour of
straight-line JS inside the `try`). -/
def runSteps (oracle : PdfStep → Except String Unit) :
    List PdfStep → Except String Unit
  | [] => Except.ok ()
  | st :: rest =>
    match oracle st with
    | Except.ok _ => runSteps oracle rest
    | Except.error e => Except.error e

/-- The result object of `exportToPDF`: `{success: true, filename}` or
`{success: false, error}` (each with the other field absent). -/
structure PdfResult where
  success : Bool
  filename : Option String
  error : Option String
  deriving DecidableEq, Repr

/-- Function `exportToPDF` from `exportToPDF.js` (lines 342-377): the whole
generation pipeline runs inside `try`; on success the function returns
`{success: true, filename: annual-reports-<year>.pdf}`, and any exception
is caught and converted to `{success: false, error: message}` — the
function itself always returns a result object (modelled by totality). -/
def exportToPDF (userReports : List UserReport) (year : Int)
    (oracle : PdfStep → Except String Unit) : PdfResult :=
  match runSteps oracle (genSteps userReports year) with
  | Except.ok _ =>
      ⟨true, some ("annual-reports-" ++ toString year ++ ".pdf"), none⟩
  | Except.error e => ⟨false, none, some e⟩

/-- C9: for every report list, year and backend behaviour, `exportToPDF`
returns a result object (it never propagates an exception): on success
`{success: true, filename: annual-reports-<year>.pdf}` with no error field,
otherwise `{success: false}` carrying the caught exception's message. -/
theorem exportToPDF_result_shape (userReports : List UserReport) (year : Int)
    (oracle : PdfStep → Except String Unit) :
    ((exportToPDF userReports year oracle).success = true ∧
      (exportToPDF userReports year oracle).filename
        = some ("annual-reports-" ++ toString year ++ ".pdf") ∧
      (exportToPDF userReports year oracle).error = none)
    ∨ ((exportToPDF userReports year oracle).success = false ∧
      (exportToPDF userReports year oracle).filename = none ∧
      ∃ e, (exportToPDF userReports year oracle).error = some e
        ∧ runSteps oracle (genSteps userReports year) = Except.error e) := by
  cases h : runSteps oracle (genSteps userReports year) with
  | ok u => exact Or.inl (by simp [exportToPDF, h])
  | error e => exact Or.inr (by simp [exportToPDF, h])

/-- A JavaScript value as far as `isBlocked === true` can observe it. -/
inductive JsVal where
  | boolean (b : Bool)
  | str (s : String)
  | num (q : ℚ)
  | nullVal
  deriving DecidableEq, Repr

/-- A `users/<uid>` document as read by the blocking check; `none` means the
`isBlocked` field is absent. -/
structure UserDoc where
  isBlocked : Option JsVal
  deriving DecidableEq, Repr

/-- Outcome of `await getDoc(userDocRef)`: the awaited call throws, or the
snapshot reports the document missing, or it exists with data. -/
inductive GetDocOutcome where
  | failure (msg : String)
  | missing
  | found (data : UserDoc)

/-- Function `checkUserBlockStatus` from `src/utils/userBlocking.js` (lines 9-31):
`false` when nobody is signed in; otherwise look the user document up —
a thrown error is caught and yields `false`, a missing document yields
`false`, and an existing document yields `userData.isBlocked === true`. -/
def checkUserBlockStatus (currentUser : Option String)
    (getUserDoc : String → GetDocOutcome) : Bool :=
  match currentUser with
  | none => false
  | some uid =>
    match getUserDoc uid with
    | GetDocOutcome.failure _ => false
    | GetDocOutcome.missing => false
    | GetDocOutcome.found data =>
      match data.isBlocked with
      | some (JsVal.boolean true) => true
      | _ => false

/-- C10: `checkUserBlockStatus` is fail-open — it returns `true` exactly
when a user is signed in, the lookup returns an existing document, and that
document's `isBlocked` field is strictly the boolean `true`; in every other
case (no user, lookup error, missing document, absent or non-`true` field)
it returns `false`, and it always returns rather than throwing (totality of
the model). -/
theorem checkUserBlockStatus_fail_open (currentUser : Option String)
    (getUserDoc : String → GetDocOutcome) :
    checkUserBlockStatus currentUser getUserDoc = true
      ↔ ∃ uid data, currentUser = some uid
          ∧ getUserDoc uid = GetDocOutcome.found data
          ∧ data.isBlocked = some (JsVal.boolean true) := by
  cases hcu : currentUser with
  | none => simp [checkUserBlockStatus, hcu]
  | some uid =>
    cases hg : getUserDoc uid with
    | failure msg => simp [checkUserBlockStatus, hcu, hg]
    | missing => simp [checkUserBlockStatus, hcu, hg]
    | found data =>
      cases hb : data.isBlocked with
      | none => simp [checkUserBlockStatus, hcu, hg, hb]
      | some v =>
        cases v with
        | boolean b => cases b <;> simp [checkUserBlockStatus, hcu, hg, hb]
        | str t => simp [checkUserBlockStatus, hcu, hg, hb]
        | num q => simp [checkUserBlockStatus, hcu, hg, hb]
        | nullVal => simp [checkUserBlockStatus, hcu, hg, hb]
